import Mathlib

/-!
Shallow embedding of the graph-construction core of `audio-topic-model`
(`src/audio_topic_model/topic_model.py`): the topic identity resolver
`generate_topic_key` (MD5 of the `"_"`-joined keyword words) and the
graph upsert pipeline `create_topic_graph` (three phases of Cypher
MERGE statements against a neo4j session).

Machine integers are modelled as `Nat` with explicit `% 2^32` where the
MD5 round functions overflow; byte strings are `List Nat` of values
`< 256`; the neo4j store is modelled as keyed maps, which is exactly the
upsert-by-unique-key semantics the MERGE statements in the source rely
on.  Keyword weights are never inspected by the source (they are only
carried into the `strength` edge attribute), so they are modelled by an
arbitrary type parameter `W`.
-/

set_option maxRecDepth 20000

namespace AudioTopicModel

/-! ### MD5 (RFC 1321), as used by `hashlib.md5` in `generate_topic_key` -/

/-- `2^32`, the modulus for 32-bit words in MD5. -/
def m32 : Nat := 4294967296

/-- 32-bit bitwise complement (valid for inputs `< 2^32`). -/
def not32 (x : Nat) : Nat := x ^^^ 4294967295

/-- 32-bit left rotation. -/
def rotl32 (x s : Nat) : Nat := ((x <<< s) ||| (x >>> (32 - s))) % m32

/-- The 64 MD5 additive constants `K[i] = floor(2^32 * |sin(i+1)|)`. -/
def md5K : List Nat :=
  [0xd76aa478, 0xe8c7b756, 0x242070db, 0xc1bdceee,
   0xf57c0faf, 0x4787c62a, 0xa8304613, 0xfd469501,
   0x698098d8, 0x8b44f7af, 0xffff5bb1, 0x895cd7be,
   0x6b901122, 0xfd987193, 0xa679438e, 0x49b40821,
   0xf61e2562, 0xc040b340, 0x265e5a51, 0xe9b6c7aa,
   0xd62f105d, 0x02441453, 0xd8a1e681, 0xe7d3fbc8,
   0x21e1cde6, 0xc33707d6, 0xf4d50d87, 0x455a14ed,
   0xa9e3e905, 0xfcefa3f8, 0x676f02d9, 0x8d2a4c8a,
   0xfffa3942, 0x8771f681, 0x6d9d6122, 0xfde5380c,
   0xa4beea44, 0x4bdecfa9, 0xf6bb4b60, 0xbebfbc70,
   0x289b7ec6, 0xeaa127fa, 0xd4ef3085, 0x04881d05,
   0xd9d4d039, 0xe6db99e5, 0x1fa27cf8, 0xc4ac5665,
   0xf4292244, 0x432aff97, 0xab9423a7, 0xfc93a039,
   0x655b59c3, 0x8f0ccc92, 0xffeff47d, 0x85845dd1,
   0x6fa87e4f, 0xfe2ce6e0, 0xa3014314, 0x4e0811a1,
   0xf7537e82, 0xbd3af235, 0x2ad7d2bb, 0xeb86d391]

/-- The 64 per-round left-rotation amounts. -/
def md5S : List Nat :=
  [7, 12, 17, 22, 7, 12, 17, 22, 7, 12, 17, 22, 7, 12, 17, 22,
   5, 9, 14, 20, 5, 9, 14, 20, 5, 9, 14, 20, 5, 9, 14, 20,
   4, 11, 16, 23, 4, 11, 16, 23, 4, 11, 16, 23, 4, 11, 16, 23,
   6, 10, 15, 21, 6, 10, 15, 21, 6, 10, 15, 21, 6, 10, 15, 21]

/-- The MD5 nonlinear round function, selected by round index `i`. -/
def md5F (i B C D : Nat) : Nat :=
  if i < 16 then (B &&& C) ||| (not32 B &&& D)
  else if i < 32 then (D &&& B) ||| (not32 D &&& C)
  else if i < 48 then B ^^^ C ^^^ D
  else C ^^^ (B ||| not32 D)

/-- The MD5 message-word index for round `i`. -/
def md5G (i : Nat) : Nat :=
  if i < 16 then i
  else if i < 32 then (5 * i + 1) % 16
  else if i < 48 then (3 * i + 5) % 16
  else (7 * i) % 16

/-- Little-endian 32-bit word `g` of a 64-byte chunk. -/
def md5Word (chunk : List Nat) (g : Nat) : Nat :=
  chunk.getD (4 * g) 0 + 256 * chunk.getD (4 * g + 1) 0
    + 65536 * chunk.getD (4 * g + 2) 0 + 16777216 * chunk.getD (4 * g + 3) 0

/-- One MD5 round on the state `(A, B, C, D)`. -/
def md5Step (chunk : List Nat) (st : Nat × Nat × Nat × Nat) (i : Nat) :
    Nat × Nat × Nat × Nat :=
  let A := st.1
  let B := st.2.1
  let C := st.2.2.1
  let D := st.2.2.2
  let f := (md5F i B C D + A + md5K.getD i 0 + md5Word chunk (md5G i)) % m32
  (D, (B + rotl32 f (md5S.getD i 0)) % m32, B, C)

/-- Process one 64-byte chunk: 64 rounds, then add into the running state. -/
def md5Chunk (st : Nat × Nat × Nat × Nat) (chunk : List Nat) :
    Nat × Nat × Nat × Nat :=
  let r := (List.range 64).foldl (md5Step chunk) st
  ((st.1 + r.1) % m32, (st.2.1 + r.2.1) % m32,
   (st.2.2.1 + r.2.2.1) % m32, (st.2.2.2 + r.2.2.2) % m32)

/-- `bytes`-byte little-endian encoding of `n`. -/
def leBytes (n : Nat) (bytes : Nat) : List Nat :=
  (List.range bytes).map (fun i => (n >>> (8 * i)) % 256)

/-- MD5 padding: append `0x80`, zero-pad to 56 mod 64, append the 64-bit
little-endian bit length. -/
def md5Padded (msg : List Nat) : List Nat :=
  msg ++ [128] ++ List.replicate ((119 - msg.length % 64) % 64) 0
    ++ leBytes ((8 * msg.length) % (2 ^ 64)) 8

/-- The 16-byte MD5 digest of a byte string. -/
def md5Digest (msg : List Nat) : List Nat :=
  let p := md5Padded msg
  let st := (List.range (p.length / 64)).foldl
    (fun st i => md5Chunk st ((p.drop (64 * i)).take 64))
    (1732584193, 4023233417, 2562383102, 271733878)
  leBytes st.1 4 ++ leBytes st.2.1 4 ++ leBytes st.2.2.1 4 ++ leBytes st.2.2.2 4

/-- Lowercase hexadecimal digit. -/
def hexDigit (n : Nat) : Char :=
  if n < 10 then Char.ofNat (48 + n) else Char.ofNat (87 + n)

/-- Two lowercase hex digits of a byte. -/
def byteToHex (b : Nat) : List Char := [hexDigit (b / 16), hexDigit (b % 16)]

/-- Lowercase hex rendering of a byte string (`.hexdigest()` in the source). -/
def hexOfBytes (bs : List Nat) : String := ⟨bs.flatMap byteToHex⟩

/-- UTF-8 encoding of one character (`str.encode()` in the source). -/
def utf8Encode (c : Char) : List Nat :=
  let n := c.toNat
  if n < 128 then [n]
  else if n < 2048 then [192 + n / 64, 128 + n % 64]
  else if n < 65536 then [224 + n / 4096, 128 + (n / 64) % 64, 128 + n % 64]
  else [240 + n / 262144, 128 + (n / 4096) % 64, 128 + (n / 64) % 64, 128 + n % 64]

/-- UTF-8 bytes of a string. -/
def strBytes (s : String) : List Nat := s.data.flatMap utf8Encode

/-! ### The topic identity resolver (`generate_topic_key`, lines 90-92) -/

/-- `generate_topic_key(keywords)`: join the words (ignoring the weights)
with `"_"`, UTF-8 encode, MD5, lowercase hex digest. -/
def generate_topic_key {W : Type} (keywords : List (String × W)) : String :=
  hexOfBytes (md5Digest (strBytes (String.intercalate "_" (keywords.map Prod.fst))))

/-! ### Records produced by the planner (`topic_queries`, `doc_queries`,
and the per-keyword records of the loop in lines 71-86) -/

/-- One entry of `topic_queries` (lines 29-37). -/
structure TopicRecord where
  key : String
  keywords : String
deriving DecidableEq

/-- One entry of `doc_queries` (lines 50-56). -/
structure DocRecord where
  content : String
  topic_key : String
deriving DecidableEq

/-- The parameters of one keyword `session.run` call (lines 75-86). -/
structure KwRecord (W : Type) where
  keyword : String
  topic_key : String
  strength : W

/-! ### The graph store

The spec's scope assumption is that the storage engine provides atomic
per-statement execution and idempotent MERGE-style upsert by unique key;
accordingly nodes and edges are keyed maps: a `MERGE` on a key that is
present matches the existing node/edge instead of creating a parallel
one, which is what makes "at most one node per key / at most one edge
per endpoint pair" hold by store semantics. -/

/-- The net state of the neo4j store, as far as `create_topic_graph`
touches it: Topic nodes (key ↦ keywords attribute), Document nodes
(by content), BELONGS_TO edges (content, topic key), Keyword nodes
(by word), REPRESENTS edges ((word, topic key) ↦ strength). -/
@[ext]
structure GraphState (W : Type) where
  topics : String → Option String
  documents : String → Bool
  belongsTo : String × String → Bool
  keywordNodes : String → Bool
  represents : String × String → Option W

/-- The empty store. -/
def emptyGraph (W : Type) : GraphState W :=
  { topics := fun _ => none
    documents := fun _ => false
    belongsTo := fun _ => false
    keywordNodes := fun _ => false
    represents := fun _ => none }

/-- Keyed-map upsert: `MERGE` on the key, then `SET` the attribute. -/
def mupd {K V : Type} [DecidableEq K] (f : K → Option V) (p : K × V) : K → Option V :=
  fun x => if x = p.1 then some p.2 else f x

/-- A sequence of keyed-map upserts, first to last. -/
def mupds {K V : Type} [DecidableEq K] (l : List (K × V)) (f : K → Option V) : K → Option V :=
  l.foldl mupd f

/-- Keyed-set insert: a bare `MERGE` with no attributes. -/
def sins {K : Type} [DecidableEq K] (f : K → Bool) (k : K) : K → Bool :=
  fun x => if x = k then true else f x

/-- A sequence of keyed-set inserts. -/
def sinss {K : Type} [DecidableEq K] (l : List K) (f : K → Bool) : K → Bool :=
  l.foldl sins f

/-! ### The writer: per-record semantics of the three Cypher statements -/

/-- One row of the topic UNWIND statement (lines 40-47):
`MERGE (t:Topic {key: topic.key}) SET t.keywords = topic.keywords` —
upsert the node by `key`, overwrite its `keywords` attribute. -/
def mergeTopic {W : Type} (s : GraphState W) (r : TopicRecord) : GraphState W :=
  { s with topics := mupd s.topics (r.key, r.keywords) }

/-- One row of the document UNWIND statement (lines 59-68):
`MERGE (d:Document {content}) WITH d MATCH (t:Topic {key}) MERGE
(d)-[:BELONGS_TO]->(t)`.  The Document node is merged unconditionally;
when the topic key is absent the MATCH silently yields no rows, so the
BELONGS_TO merge simply does not happen — no error is raised. -/
def mergeDocument {W : Type} (s : GraphState W) (r : DocRecord) : GraphState W :=
  let s1 := { s with documents := sins s.documents r.content }
  match s.topics r.topic_key with
  | some _ => { s1 with belongsTo := sins s1.belongsTo (r.content, r.topic_key) }
  | none => s1

/-- One keyword statement (lines 75-86): `MERGE (k:Keyword {word}) WITH k
MATCH (t:Topic {key}) MERGE (k)-[r:REPRESENTS]->(t) SET r.strength = $strength`.
The Keyword node is merged unconditionally; the edge upsert and strength
overwrite happen only when the topic MATCH succeeds. -/
def mergeKeyword {W : Type} (s : GraphState W) (r : KwRecord W) : GraphState W :=
  let s1 := { s with keywordNodes := sins s.keywordNodes r.keyword }
  match s.topics r.topic_key with
  | some _ =>
    { s1 with represents := mupd s1.represents ((r.keyword, r.topic_key), r.strength) }
  | none => s1

/-! ### The planner (list comprehensions of `create_topic_graph`) -/

/-- `topic_queries` (lines 29-37): one record per topic id in the given
id list, carrying the resolved key and the `", "`-joined word list. -/
def topic_queries {W : Type} (topic_ids : List Int)
    (get_topic : Int → List (String × W)) : List TopicRecord :=
  topic_ids.map (fun topic_id =>
    { key := generate_topic_key (get_topic topic_id)
      keywords := String.intercalate ", " ((get_topic topic_id).map Prod.fst) })

/-- `doc_queries` (lines 50-56): one record per `zip(docs, topics)` pair. -/
def doc_queries {W : Type} (docs : List String) (topics : List Int)
    (get_topic : Int → List (String × W)) : List DocRecord :=
  (docs.zip topics).map (fun p =>
    { content := p.1, topic_key := generate_topic_key (get_topic p.2) })

/-- The keyword records issued by the nested loop of lines 71-86, in
iteration order: for each topic id, one record per (word, weight) pair. -/
def keyword_queries {W : Type} (topic_ids : List Int)
    (get_topic : Int → List (String × W)) : List (KwRecord W) :=
  topic_ids.flatMap (fun topic_id =>
    (get_topic topic_id).map (fun kw =>
      { keyword := kw.1
        topic_key := generate_topic_key (get_topic topic_id)
        strength := kw.2 }))

/-- `create_topic_graph(driver, docs, topics, topic_model)` (lines 13-86):
net effect on the store of the three phases, in source order — topic
UNWIND, document UNWIND, then the per-keyword loop.  Python's
`set(topics)` is modelled as `topics.dedup` (one occurrence per distinct
id; the source's set iteration order is an implementation detail). -/
def create_topic_graph {W : Type} (docs : List String) (topics : List Int)
    (get_topic : Int → List (String × W)) (s : GraphState W) : GraphState W :=
  let topic_ids := topics.dedup
  let s1 := (topic_queries topic_ids get_topic).foldl mergeTopic s
  let s2 := (doc_queries docs topics get_topic).foldl mergeDocument s1
  (keyword_queries topic_ids get_topic).foldl mergeKeyword s2

/-! ### The write statements as a trace (for the temporal claims) -/

/-- One `session.run` call of `create_topic_graph`. -/
inductive WriteStmt (W : Type) where
  | topicsStmt (batch : List TopicRecord)
  | documentsStmt (batch : List DocRecord)
  | keywordStmt (r : KwRecord W)

/-- The sequence of `session.run` calls `create_topic_graph` makes, in
source order: the topic UNWIND (line 40), the document UNWIND (line 59),
then one call per keyword record (line 75). -/
def session_runs {W : Type} (docs : List String) (topics : List Int)
    (get_topic : Int → List (String × W)) : List (WriteStmt W) :=
  let topic_ids := topics.dedup
  WriteStmt.topicsStmt (topic_queries topic_ids get_topic)
    :: WriteStmt.documentsStmt (doc_queries docs topics get_topic)
    :: (keyword_queries topic_ids get_topic).map WriteStmt.keywordStmt

/-- Store semantics of one `session.run` call. -/
def runStmt {W : Type} (s : GraphState W) : WriteStmt W → GraphState W
  | .topicsStmt b => b.foldl mergeTopic s
  | .documentsStmt b => b.foldl mergeDocument s
  | .keywordStmt r => mergeKeyword s r

/-- The pipeline phase a statement belongs to, numbered in the order of
the state machine TOPICS_WRITTEN (0) → DOCUMENTS_WRITTEN (1) →
KEYWORDS_WRITTEN (2). -/
def stmtPhase {W : Type} : WriteStmt W → Nat
  | .topicsStmt _ => 0
  | .documentsStmt _ => 1
  | .keywordStmt _ => 2

/-! ### Derived views used in the statements of the lemmas -/

/-- The value of the last pair in `l` whose key is `k` (last-upsert-wins). -/
def lastVal {K V : Type} [DecidableEq K] (k : K) : List (K × V) → Option V
  | [] => none
  | p :: l =>
    match lastVal k l with
    | some v => some v
    | none => if k = p.1 then some p.2 else none

/-- `lastOr o d`: `o` when it carries a value, else the fallback `d`
(the value a keyed map holds after an optional overwrite). -/
def lastOr {V : Type} (o : Option V) (d : Option V) : Option V :=
  match o with
  | some v => some v
  | none => d

/-- The BELONGS_TO edges a document batch creates against topic map `t`:
those of records whose topic key exists in `t`. -/
def docEdges (t : String → Option String) (b : List DocRecord) :
    List (String × String) :=
  b.filterMap (fun r =>
    if (t r.topic_key).isSome then some (r.content, r.topic_key) else none)

/-- The REPRESENTS upserts a keyword batch performs against topic map `t`. -/
def kwEdges {W : Type} (t : String → Option String) (b : List (KwRecord W)) :
    List ((String × String) × W) :=
  b.filterMap (fun r =>
    if (t r.topic_key).isSome then some ((r.keyword, r.topic_key), r.strength) else none)

/-! ### Characterization lemmas for the keyed-map primitives -/

/-- RFC 1321 test vector: MD5("abc"), validating the embedded hash. -/
theorem md5_test_vector :
    hexOfBytes (md5Digest (strBytes "abc")) = "900150983cd24fb0d6963f7d28e17f72" := by
  decide

theorem mupds_apply {K V : Type} [DecidableEq K] (l : List (K × V))
    (f : K → Option V) (k : K) :
    mupds l f k = lastOr (lastVal k l) (f k) := by
  induction l generalizing f with
  | nil => rfl
  | cons p t ih =>
    show mupds t (mupd f p) k = _
    rw [ih]
    cases h : lastVal k t with
    | some v => simp [lastVal, lastOr, h]
    | none =>
      simp only [lastVal, h, lastOr, mupd]
      by_cases hk : k = p.1 <;> simp [hk]

theorem mupds_idem {K V : Type} [DecidableEq K] (l : List (K × V))
    (f : K → Option V) :
    mupds l (mupds l f) = mupds l f := by
  funext k
  rw [mupds_apply, mupds_apply]
  cases h : lastVal k l <;> simp [lastOr, h]

theorem sinss_apply {K : Type} [DecidableEq K] (l : List K) (f : K → Bool) (k : K) :
    sinss l f k = (f k || decide (k ∈ l)) := by
  induction l generalizing f with
  | nil => simp [sinss]
  | cons a t ih =>
    show sinss t (sins f a) k = _
    rw [ih]
    by_cases hk : k = a <;> simp [sins, hk]

theorem sinss_idem {K : Type} [DecidableEq K] (l : List K) (f : K → Bool) :
    sinss l (sinss l f) = sinss l f := by
  funext k
  rw [sinss_apply, sinss_apply, Bool.or_assoc, Bool.or_self]

/-! ### What each merge step does to each store component -/

@[simp]
theorem mergeTopic_topics {W : Type} (s : GraphState W) (r : TopicRecord) :
    (mergeTopic s r).topics = mupd s.topics (r.key, r.keywords) := rfl

@[simp]
theorem mergeTopic_documents {W : Type} (s : GraphState W) (r : TopicRecord) :
    (mergeTopic s r).documents = s.documents := rfl

@[simp]
theorem mergeTopic_belongsTo {W : Type} (s : GraphState W) (r : TopicRecord) :
    (mergeTopic s r).belongsTo = s.belongsTo := rfl

@[simp]
theorem mergeTopic_keywordNodes {W : Type} (s : GraphState W) (r : TopicRecord) :
    (mergeTopic s r).keywordNodes = s.keywordNodes := rfl

@[simp]
theorem mergeTopic_represents {W : Type} (s : GraphState W) (r : TopicRecord) :
    (mergeTopic s r).represents = s.represents := rfl

@[simp]
theorem mergeDocument_topics {W : Type} (s : GraphState W) (r : DocRecord) :
    (mergeDocument s r).topics = s.topics := by
  cases h : s.topics r.topic_key <;> simp [mergeDocument, h]

@[simp]
theorem mergeDocument_documents {W : Type} (s : GraphState W) (r : DocRecord) :
    (mergeDocument s r).documents = sins s.documents r.content := by
  cases h : s.topics r.topic_key <;> simp [mergeDocument, h]

theorem mergeDocument_belongsTo {W : Type} (s : GraphState W) (r : DocRecord) :
    (mergeDocument s r).belongsTo =
      if (s.topics r.topic_key).isSome then sins s.belongsTo (r.content, r.topic_key)
      else s.belongsTo := by
  cases h : s.topics r.topic_key <;> simp [mergeDocument, h]

@[simp]
theorem mergeDocument_keywordNodes {W : Type} (s : GraphState W) (r : DocRecord) :
    (mergeDocument s r).keywordNodes = s.keywordNodes := by
  cases h : s.topics r.topic_key <;> simp [mergeDocument, h]

@[simp]
theorem mergeDocument_represents {W : Type} (s : GraphState W) (r : DocRecord) :
    (mergeDocument s r).represents = s.represents := by
  cases h : s.topics r.topic_key <;> simp [mergeDocument, h]

@[simp]
theorem mergeKeyword_topics {W : Type} (s : GraphState W) (r : KwRecord W) :
    (mergeKeyword s r).topics = s.topics := by
  cases h : s.topics r.topic_key <;> simp [mergeKeyword, h]

@[simp]
theorem mergeKeyword_documents {W : Type} (s : GraphState W) (r : KwRecord W) :
    (mergeKeyword s r).documents = s.documents := by
  cases h : s.topics r.topic_key <;> simp [mergeKeyword, h]

@[simp]
theorem mergeKeyword_belongsTo {W : Type} (s : GraphState W) (r : KwRecord W) :
    (mergeKeyword s r).belongsTo = s.belongsTo := by
  cases h : s.topics r.topic_key <;> simp [mergeKeyword, h]

@[simp]
theorem mergeKeyword_keywordNodes {W : Type} (s : GraphState W) (r : KwRecord W) :
    (mergeKeyword s r).keywordNodes = sins s.keywordNodes r.keyword := by
  cases h : s.topics r.topic_key <;> simp [mergeKeyword, h]

theorem mergeKeyword_represents {W : Type} (s : GraphState W) (r : KwRecord W) :
    (mergeKeyword s r).represents =
      if (s.topics r.topic_key).isSome then
        mupd s.represents ((r.keyword, r.topic_key), r.strength)
      else s.represents := by
  cases h : s.topics r.topic_key <;> simp [mergeKeyword, h]

/-! ### What each whole batch does to each store component -/

theorem docEdges_cons (t : String → Option String) (r : DocRecord) (b : List DocRecord) :
    docEdges t (r :: b) =
      if (t r.topic_key).isSome then (r.content, r.topic_key) :: docEdges t b
      else docEdges t b := by
  by_cases h : (t r.topic_key).isSome <;> simp [docEdges, h]

theorem kwEdges_cons {W : Type} (t : String → Option String) (r : KwRecord W)
    (b : List (KwRecord W)) :
    kwEdges t (r :: b) =
      if (t r.topic_key).isSome then ((r.keyword, r.topic_key), r.strength) :: kwEdges t b
      else kwEdges t b := by
  by_cases h : (t r.topic_key).isSome <;> simp [kwEdges, h]

theorem foldl_mergeTopic_topics {W : Type} (b : List TopicRecord) (s : GraphState W) :
    (b.foldl mergeTopic s).topics =
      mupds (b.map (fun r => (r.key, r.keywords))) s.topics := by
  induction b generalizing s with
  | nil => rfl
  | cons r t ih => simp [ih, mupds]

theorem foldl_mergeTopic_documents {W : Type} (b : List TopicRecord) (s : GraphState W) :
    (b.foldl mergeTopic s).documents = s.documents := by
  induction b generalizing s with
  | nil => rfl
  | cons r t ih => simp [ih]

theorem foldl_mergeTopic_belongsTo {W : Type} (b : List TopicRecord) (s : GraphState W) :
    (b.foldl mergeTopic s).belongsTo = s.belongsTo := by
  induction b generalizing s with
  | nil => rfl
  | cons r t ih => simp [ih]

theorem foldl_mergeTopic_keywordNodes {W : Type} (b : List TopicRecord) (s : GraphState W) :
    (b.foldl mergeTopic s).keywordNodes = s.keywordNodes := by
  induction b generalizing s with
  | nil => rfl
  | cons r t ih => simp [ih]

theorem foldl_mergeTopic_represents {W : Type} (b : List TopicRecord) (s : GraphState W) :
    (b.foldl mergeTopic s).represents = s.represents := by
  induction b generalizing s with
  | nil => rfl
  | cons r t ih => simp [ih]

theorem foldl_mergeDocument_topics {W : Type} (b : List DocRecord) (s : GraphState W) :
    (b.foldl mergeDocument s).topics = s.topics := by
  induction b generalizing s with
  | nil => rfl
  | cons r t ih => simp [ih]

theorem foldl_mergeDocument_documents {W : Type} (b : List DocRecord) (s : GraphState W) :
    (b.foldl mergeDocument s).documents =
      sinss (b.map DocRecord.content) s.documents := by
  induction b generalizing s with
  | nil => rfl
  | cons r t ih => simp [ih, sinss]

theorem foldl_mergeDocument_belongsTo {W : Type} (b : List DocRecord) (s : GraphState W) :
    (b.foldl mergeDocument s).belongsTo =
      sinss (docEdges s.topics b) s.belongsTo := by
  induction b generalizing s with
  | nil => rfl
  | cons r t ih =>
    rw [List.foldl_cons, ih, mergeDocument_topics, docEdges_cons, mergeDocument_belongsTo]
    by_cases h : (s.topics r.topic_key).isSome <;> simp [h, sinss]

theorem foldl_mergeDocument_keywordNodes {W : Type} (b : List DocRecord) (s : GraphState W) :
    (b.foldl mergeDocument s).keywordNodes = s.keywordNodes := by
  induction b generalizing s with
  | nil => rfl
  | cons r t ih => simp [ih]

theorem foldl_mergeDocument_represents {W : Type} (b : List DocRecord) (s : GraphState W) :
    (b.foldl mergeDocument s).represents = s.represents := by
  induction b generalizing s with
  | nil => rfl
  | cons r t ih => simp [ih]

theorem foldl_mergeKeyword_topics {W : Type} (b : List (KwRecord W)) (s : GraphState W) :
    (b.foldl mergeKeyword s).topics = s.topics := by
  induction b generalizing s with
  | nil => rfl
  | cons r t ih => simp [ih]

theorem foldl_mergeKeyword_documents {W : Type} (b : List (KwRecord W)) (s : GraphState W) :
    (b.foldl mergeKeyword s).documents = s.documents := by
  induction b generalizing s with
  | nil => rfl
  | cons r t ih => simp [ih]

theorem foldl_mergeKeyword_belongsTo {W : Type} (b : List (KwRecord W)) (s : GraphState W) :
    (b.foldl mergeKeyword s).belongsTo = s.belongsTo := by
  induction b generalizing s with
  | nil => rfl
  | cons r t ih => simp [ih]

theorem foldl_mergeKeyword_keywordNodes {W : Type} (b : List (KwRecord W)) (s : GraphState W) :
    (b.foldl mergeKeyword s).keywordNodes =
      sinss (b.map KwRecord.keyword) s.keywordNodes := by
  induction b generalizing s with
  | nil => rfl
  | cons r t ih => simp [ih, sinss]

theorem foldl_mergeKeyword_represents {W : Type} (b : List (KwRecord W)) (s : GraphState W) :
    (b.foldl mergeKeyword s).represents =
      mupds (kwEdges s.topics b) s.represents := by
  induction b generalizing s with
  | nil => rfl
  | cons r t ih =>
    rw [List.foldl_cons, ih, mergeKeyword_topics, kwEdges_cons, mergeKeyword_represents]
    by_cases h : (s.topics r.topic_key).isSome <;> simp [h, mupds]

/-! ### Net effect of one whole `create_topic_graph` run -/

theorem create_topic_graph_topics {W : Type} (docs : List String) (topics : List Int)
    (g : Int → List (String × W)) (s : GraphState W) :
    (create_topic_graph docs topics g s).topics =
      mupds ((topic_queries topics.dedup g).map (fun r => (r.key, r.keywords))) s.topics := by
  unfold create_topic_graph
  rw [foldl_mergeKeyword_topics, foldl_mergeDocument_topics, foldl_mergeTopic_topics]

theorem create_topic_graph_documents {W : Type} (docs : List String) (topics : List Int)
    (g : Int → List (String × W)) (s : GraphState W) :
    (create_topic_graph docs topics g s).documents =
      sinss ((doc_queries docs topics g).map DocRecord.content) s.documents := by
  unfold create_topic_graph
  rw [foldl_mergeKeyword_documents, foldl_mergeDocument_documents, foldl_mergeTopic_documents]

theorem create_topic_graph_belongsTo {W : Type} (docs : List String) (topics : List Int)
    (g : Int → List (String × W)) (s : GraphState W) :
    (create_topic_graph docs topics g s).belongsTo =
      sinss
        (docEdges
          (mupds ((topic_queries topics.dedup g).map (fun r => (r.key, r.keywords))) s.topics)
          (doc_queries docs topics g))
        s.belongsTo := by
  unfold create_topic_graph
  rw [foldl_mergeKeyword_belongsTo, foldl_mergeDocument_belongsTo, foldl_mergeTopic_topics,
    foldl_mergeTopic_belongsTo]

theorem create_topic_graph_keywordNodes {W : Type} (docs : List String) (topics : List Int)
    (g : Int → List (String × W)) (s : GraphState W) :
    (create_topic_graph docs topics g s).keywordNodes =
      sinss ((keyword_queries topics.dedup g).map KwRecord.keyword) s.keywordNodes := by
  unfold create_topic_graph
  rw [foldl_mergeKeyword_keywordNodes, foldl_mergeDocument_keywordNodes,
    foldl_mergeTopic_keywordNodes]

theorem create_topic_graph_represents {W : Type} (docs : List String) (topics : List Int)
    (g : Int → List (String × W)) (s : GraphState W) :
    (create_topic_graph docs topics g s).represents =
      mupds
        (kwEdges
          (mupds ((topic_queries topics.dedup g).map (fun r => (r.key, r.keywords))) s.topics)
          (keyword_queries topics.dedup g))
        s.represents := by
  unfold create_topic_graph
  rw [foldl_mergeKeyword_represents, foldl_mergeDocument_topics, foldl_mergeTopic_topics,
    foldl_mergeDocument_represents, foldl_mergeTopic_represents]

/-! ### The trace refines the state semantics -/

theorem session_runs_foldl {W : Type} (docs : List String) (topics : List Int)
    (g : Int → List (String × W)) (s : GraphState W) :
    (session_runs docs topics g).foldl runStmt s = create_topic_graph docs topics g s := by
  simp [session_runs, create_topic_graph, runStmt, List.foldl_map]

/-- The phase trace `0 :: 1 :: 2, 2, ..., 2` never decreases. -/
theorem chain_le_phases (n : Nat) :
    List.Chain' (· ≤ ·) (0 :: 1 :: List.replicate n 2) := by
  induction n with
  | zero => simp
  | succ m ih =>
    rw [List.replicate_succ]
    rcases m with _ | m'
    · simp
    · rw [List.replicate_succ] at ih ⊢
      simp_all

theorem map_stmtPhase_keyword {W : Type} (l : List (KwRecord W)) :
    (l.map WriteStmt.keywordStmt).map stmtPhase = List.replicate l.length 2 := by
  induction l with
  | nil => rfl
  | cons r t ih => simp [stmtPhase, ih, List.replicate_succ]

/-! ### The claims -/

/-- C4: the resolver's output equals the lowercase hexadecimal digest of a
fixed hash (MD5) applied to the UTF-8 encoding of the words joined by the
fixed separator `"_"`, with weights ignored; in particular for
`[("chat", 0.9), ("chien", 0.7)]` the key equals the digest of the string
`"chat_chien"` (concretely `"1541bb6ac71a71c3d4e39e6071a1f98f"`). -/
theorem c4_resolver_formula :
    (∀ (W1 W2 : Type) (k1 : List (String × W1)) (k2 : List (String × W2)),
        k1.map Prod.fst = k2.map Prod.fst → generate_topic_key k1 = generate_topic_key k2)
      ∧ (∀ (W : Type) (k : List (String × W)),
          generate_topic_key k
            = hexOfBytes (md5Digest (strBytes (String.intercalate "_" (k.map Prod.fst)))))
      ∧ generate_topic_key [("chat", (9 : ℚ)/10), ("chien", (7 : ℚ)/10)]
          = hexOfBytes (md5Digest (strBytes "chat_chien"))
      ∧ generate_topic_key [("chat", (9 : ℚ)/10), ("chien", (7 : ℚ)/10)]
          = "1541bb6ac71a71c3d4e39e6071a1f98f" := by
  refine ⟨?_, fun W k => rfl, ?_, ?_⟩
  · intro W1 W2 k1 k2 h
    unfold generate_topic_key
    rw [h]
  · decide
  · decide

/-- Witness for C4: weights are ignored — two sequences of the same words
with weights of different types resolve identically. -/
theorem c4_witness :
    generate_topic_key [("chat", (1 : Nat))] = generate_topic_key [("chat", true)] :=
  c4_resolver_formula.1 Nat Bool [("chat", 1)] [("chat", true)] rfl

/-- C5: running the full upsert pipeline twice with identical input produces
the same final graph state as running it once: no duplicate Topic, Document,
or Keyword nodes and no duplicate edges are created by the second run (the
store state after two runs is equal, component by component, to the state
after one). -/
theorem c5_pipeline_idempotent (W : Type) (docs : List String) (topics : List Int)
    (g : Int → List (String × W)) (s : GraphState W) :
    create_topic_graph docs topics g (create_topic_graph docs topics g s) =
      create_topic_graph docs topics g s := by
  apply GraphState.ext
  · simp only [create_topic_graph_topics]
    exact mupds_idem _ _
  · simp only [create_topic_graph_documents]
    exact sinss_idem _ _
  · simp only [create_topic_graph_belongsTo, create_topic_graph_topics, mupds_idem]
    exact sinss_idem _ _
  · simp only [create_topic_graph_keywordNodes]
    exact sinss_idem _ _
  · simp only [create_topic_graph_represents, create_topic_graph_topics, mupds_idem]

/-- C6: within one run the writes are executed in the fixed order topics,
then document-to-topic edges, then keyword-to-topic edges: the phase trace
of the `session.run` calls is exactly `TOPICS_WRITTEN (0) ::
DOCUMENTS_WRITTEN (1) :: KEYWORDS_WRITTEN (2) ...` — both UNWIND
statements always execute (no transition skipped), the phase sequence
never decreases (a document or keyword write never precedes the topic
batch of the same run), and replaying the trace against any store state
coincides with `create_topic_graph`. -/
theorem c6_write_order (W : Type) (docs : List String) (topics : List Int)
    (g : Int → List (String × W)) :
    (session_runs docs topics g).map stmtPhase
        = 0 :: 1 :: List.replicate (keyword_queries topics.dedup g).length 2
      ∧ List.Chain' (· ≤ ·) ((session_runs docs topics g).map stmtPhase)
      ∧ ∀ s, (session_runs docs topics g).foldl runStmt s
          = create_topic_graph docs topics g s := by
  have h1 : (session_runs docs topics g).map stmtPhase
      = 0 :: 1 :: List.replicate (keyword_queries topics.dedup g).length 2 := by
    simp only [session_runs, List.map_cons]
    rw [map_stmtPhase_keyword]
    rfl
  refine ⟨h1, ?_, fun s => session_runs_foldl docs topics g s⟩
  rw [h1]
  exact chain_le_phases _

/-- C8: reordering the same set of words changes the resolved key:
`[("a",_), ("b",_)]` and `[("b",_), ("a",_)]` carry permuted word lists,
yet the resolver returns different key strings. -/
theorem c8_order_sensitivity :
    (([("a", (1 : Nat)), ("b", 1)] : List (String × Nat)).map Prod.fst).Perm
        (([("b", (1 : Nat)), ("a", 1)] : List (String × Nat)).map Prod.fst)
      ∧ generate_topic_key [("a", (1 : Nat)), ("b", 1)]
          ≠ generate_topic_key [("b", (1 : Nat)), ("a", 1)] := by
  refine ⟨?_, ?_⟩
  · decide
  · decide

/-- C9: the resolver applied to the empty keyword sequence returns the
fixed constant digest of the empty string, with no special-casing. -/
theorem c9_empty_sequence :
    generate_topic_key ([] : List (String × Nat)) = hexOfBytes (md5Digest (strBytes ""))
      ∧ generate_topic_key ([] : List (String × Nat))
          = "d41d8cd98f00b204e9800998ecf8427e" := by
  exact ⟨rfl, by decide⟩

/-- C10: planner-output referential consistency — every `topic_key`
occurring in a document-batch record or a keyword-batch record of a run
equals the resolved key of some record in the topic batch of the same run. -/
theorem c10_referential_consistency (W : Type) (docs : List String) (topics : List Int)
    (g : Int → List (String × W)) (tk : String)
    (h : (∃ r ∈ doc_queries docs topics g, r.topic_key = tk) ∨
         (∃ r ∈ keyword_queries topics.dedup g, r.topic_key = tk)) :
    ∃ tr ∈ topic_queries topics.dedup g, tr.key = tk := by
  rcases h with ⟨r, hr, hk⟩ | ⟨r, hr, hk⟩
  · rw [doc_queries, List.mem_map] at hr
    obtain ⟨⟨d, t⟩, hp, rfl⟩ := hr
    have ht : t ∈ topics := (List.of_mem_zip hp).2
    exact ⟨_, List.mem_map_of_mem _ (List.mem_dedup.mpr ht), hk⟩
  · rw [keyword_queries, List.mem_flatMap] at hr
    obtain ⟨topic_id, hid, hmem⟩ := hr
    rw [List.mem_map] at hmem
    obtain ⟨kw, hkw, rfl⟩ := hmem
    exact ⟨_, List.mem_map_of_mem _ hid, hk⟩

/-- Witness for C10 at a concrete run: one document assigned topic id 0. -/
theorem c10_witness :
    ∃ tr ∈ topic_queries ([0] : List Int).dedup (fun _ => [("w", (1 : Nat))]),
      tr.key = generate_topic_key [("w", (1 : Nat))] :=
  c10_referential_consistency Nat ["d"] [0] (fun _ => [("w", 1)])
    (generate_topic_key [("w", (1 : Nat))])
    (Or.inl ⟨{content := "d", topic_key := generate_topic_key [("w", (1 : Nat))]},
      by decide, rfl⟩)

/-- C1 counterexample: the source raises no error at all when a document
record references an absent topic key — the statement `MERGE (d:Document
{content}) WITH d MATCH (t:Topic {key}) MERGE (d)-[:BELONGS_TO]->(t)`
merges the Document node first and the failed MATCH silently drops the
row, so on an empty store the batch leaves the Document node created with
no BELONGS_TO edge, contradicting the claimed ReferentialIntegrityError
(the identifier does not even occur in the repository). -/
theorem c1_counterexample :
    (([{content := "doc1", topic_key := "nokey"}] : List DocRecord).foldl
        mergeDocument (emptyGraph Nat)).documents "doc1" = true
      ∧ (([{content := "doc1", topic_key := "nokey"}] : List DocRecord).foldl
          mergeDocument (emptyGraph Nat)).belongsTo ("doc1", "nokey") = false := by
  exact ⟨rfl, rfl⟩

/-- C1 amended: when a document record references a `topic_key` with no
Topic node in the store, the write does not fail — the Document node is
still merged and no BELONGS_TO edge is created (the MATCH silently
no-ops). -/
theorem c1_silent_noop (W : Type) (s : GraphState W) (r : DocRecord)
    (h : s.topics r.topic_key = none) :
    (mergeDocument s r).documents = sins s.documents r.content
      ∧ (mergeDocument s r).belongsTo = s.belongsTo := by
  constructor
  · exact mergeDocument_documents s r
  · rw [mergeDocument_belongsTo, h]
    rfl

/-- Witness for C1 on the empty store. -/
theorem c1_witness :
    (mergeDocument (emptyGraph Nat) {content := "doc1", topic_key := "nokey"}).documents
        = sins (emptyGraph Nat).documents "doc1"
      ∧ (mergeDocument (emptyGraph Nat) {content := "doc1", topic_key := "nokey"}).belongsTo
        = (emptyGraph Nat).belongsTo :=
  c1_silent_noop Nat (emptyGraph Nat) {content := "doc1", topic_key := "nokey"} rfl

/-- C2 counterexample: with two documents and one topic assignment the
lengths mismatch, yet the run is not rejected: `zip` silently truncates
the document batch, every statement is still issued (the trace is
nonempty, starting with the topic UNWIND), and the writes go through —
document "a" is created while document "b" is silently dropped. -/
theorem c2_counterexample :
    (["a", "b"] : List String).length ≠ ([0] : List Int).length
      ∧ (session_runs ["a", "b"] [0] (fun _ => [("w", (1 : Nat))])).length
          = 2 + (keyword_queries ([0] : List Int).dedup (fun _ => [("w", (1 : Nat))])).length
      ∧ (create_topic_graph ["a", "b"] [0] (fun _ => [("w", (1 : Nat))])
          (emptyGraph Nat)).documents "a" = true
      ∧ (create_topic_graph ["a", "b"] [0] (fun _ => [("w", (1 : Nat))])
          (emptyGraph Nat)).documents "b" = false := by
  refine ⟨by decide, by simp [session_runs]; omega, ?_, ?_⟩
  · decide
  · decide

/-- C2 amended: mismatched lengths between documents and assignments are
not rejected at planner entry; the document batch is silently truncated
to the shorter length (`zip`) and the run still issues its full statement
sequence — one topic UNWIND, one document UNWIND, one statement per
keyword record — against the store. -/
theorem c2_zip_truncates (W : Type) (docs : List String) (topics : List Int)
    (g : Int → List (String × W)) :
    (doc_queries docs topics g).length = min docs.length topics.length
      ∧ (session_runs docs topics g).length
          = 2 + (keyword_queries topics.dedup g).length := by
  constructor
  · simp [doc_queries]
  · simp [session_runs]
    omega

/-- C3 counterexample: topic ids 0 and 1 are distinct and their keyword
lists both resolve to the same key, yet the topic batch contains two
records with that key, not exactly one — the list comprehension over
`set(topics)` de-duplicates by topic id only, not by resolved key. -/
theorem c3_counterexample :
    (0 : Int) ≠ 1
      ∧ generate_topic_key [("a", (1 : Nat))] = generate_topic_key [("a", (1 : Nat))]
      ∧ ¬ ((topic_queries (([0, 1] : List Int).dedup) (fun _ => [("a", (1 : Nat))])).countP
            (fun r => r.key == generate_topic_key [("a", (1 : Nat))]) = 1)
      ∧ (topic_queries (([0, 1] : List Int).dedup) (fun _ => [("a", (1 : Nat))])).countP
          (fun r => r.key == generate_topic_key [("a", (1 : Nat))]) = 2 := by
  refine ⟨by decide, rfl, ?_, ?_⟩
  · decide
  · decide

/-- C3 amended: the topic batch contains one record per distinct topic-id
(no de-duplication by resolved key), and the collapse to one node per key
happens only at the store, where the sequence of MERGE/SET upserts leaves,
for each key, the keyword serialization of the last record carrying it. -/
theorem c3_one_record_per_id (W : Type) (topics : List Int)
    (g : Int → List (String × W)) (s : GraphState W) :
    (topic_queries topics.dedup g).length = topics.dedup.length
      ∧ ∀ k, ((topic_queries topics.dedup g).foldl mergeTopic s).topics k =
          lastOr
            (lastVal k ((topic_queries topics.dedup g).map (fun r => (r.key, r.keywords))))
            (s.topics k) := by
  constructor
  · simp [topic_queries]
  · intro k
    rw [foldl_mergeTopic_topics, mupds_apply]

/-- C7: writing a REPRESENTS record for (word="crisis", topic T) with
strength `a` and then again with strength `b` leaves the pair's single
edge carrying strength `b` (`SET r.strength` overwrites; the MERGE is
keyed by the (keyword, topic) pair, so no parallel edge can appear), and
the edge map at every other pair is untouched. -/
theorem c7_strength_overwrite (W : Type) (s : GraphState W) (T : String) (a b : W)
    (h : (s.topics T).isSome = true) :
    (mergeKeyword (mergeKeyword s {keyword := "crisis", topic_key := T, strength := a})
        {keyword := "crisis", topic_key := T, strength := b}).represents ("crisis", T)
        = some b
      ∧ ∀ p, p ≠ ("crisis", T) →
        (mergeKeyword (mergeKeyword s {keyword := "crisis", topic_key := T, strength := a})
            {keyword := "crisis", topic_key := T, strength := b}).represents p
          = s.represents p := by
  refine ⟨?_, fun p hp => ?_⟩
  · simp [mergeKeyword_represents, mergeKeyword_topics, h, mupd]
  · simp [mergeKeyword_represents, mergeKeyword_topics, h, mupd, hp]

/-- Witness for C7: strengths 8/10 then 5/10 against a store holding topic
"T"; exactly the surviving strength 5/10 remains on the pair. -/
theorem c7_witness :
    (mergeKeyword
        (mergeKeyword (mergeTopic (emptyGraph ℚ) {key := "T", keywords := "crisis"})
          {keyword := "crisis", topic_key := "T", strength := (8 : ℚ)/10})
        {keyword := "crisis", topic_key := "T", strength := (5 : ℚ)/10}).represents
        ("crisis", "T")
      = some ((5 : ℚ)/10) :=
  (c7_strength_overwrite ℚ (mergeTopic (emptyGraph ℚ) {key := "T", keywords := "crisis"})
    "T" ((8 : ℚ)/10) ((5 : ℚ)/10) rfl).1

end AudioTopicModel
